import Mathlib

/-!
Verification of the FastStorage market-data replay scripts.

The embedding models the three Python scripts:
  - bench_faststorage_cs.py  (DepthBook.apply, TradeLog.push, run_benchmark)
  - process_messages_cs.py   (DepthSnapshot.update, TradeProcessor.update,
    process_messages, FastReader classification of read_message codes)
  - bench_faststorage_rust.py (the benchmark loop with its own inline book
    logic and its own FastReader error classification)

Python dicts keyed by scaled price are modelled as association lists with
unique keys; raw wire integers are Int, the fixed-point scale is exact
division by 10^8 in the rationals.
-/

namespace FastStorage

/-- Python dict lookup `m[k]` as an option: value at the key, if present. -/
def dlookup (m : List (ℚ × ℚ)) (k : ℚ) : Option ℚ :=
  match m with
  | [] => none
  | kv :: rest => if kv.1 = k then some kv.2 else dlookup rest k

/-- Python dict assignment `m[k] = v`: overwrite the existing entry for the
key in place, or append a new entry when the key is absent. -/
def dset (m : List (ℚ × ℚ)) (k v : ℚ) : List (ℚ × ℚ) :=
  match m with
  | [] => [(k, v)]
  | kv :: rest => if kv.1 = k then (k, v) :: rest else kv :: dset rest k v

/-- Python `m.pop(k, None)`: remove the entry for the key if present,
a no-op when absent. -/
def dpop (m : List (ℚ × ℚ)) (k : ℚ) : List (ℚ × ℚ) :=
  match m with
  | [] => []
  | kv :: rest => if kv.1 = k then dpop rest k else kv :: dpop rest k

theorem dlookup_dset (m : List (ℚ × ℚ)) (k v q : ℚ) :
    dlookup (dset m k v) q = if q = k then some v else dlookup m q := by
  induction m with
  | nil =>
    by_cases h : q = k
    · simp [dset, dlookup, h]
    · simp [dset, dlookup, h, show ¬k = q from fun h2 => h h2.symm]
  | cons kv rest ih =>
    by_cases hk : kv.1 = k
    · by_cases h : q = k
      · simp [dset, dlookup, hk, h]
      · simp [dset, dlookup, hk, h, show ¬k = q from fun h2 => h h2.symm]
    · by_cases h2 : kv.1 = q
      · have hqk : ¬q = k := fun hh => hk (h2.trans hh)
        simp [dset, dlookup, hk, h2, hqk]
      · simp [dset, dlookup, hk, h2, ih]

theorem dlookup_dpop (m : List (ℚ × ℚ)) (k q : ℚ) :
    dlookup (dpop m k) q = if q = k then none else dlookup m q := by
  induction m with
  | nil => simp [dpop, dlookup]
  | cons kv rest ih =>
    by_cases hk : kv.1 = k
    · rw [show dpop (kv :: rest) k = dpop rest k by simp [dpop, hk], ih]
      by_cases h : q = k
      · simp [h]
      · simp [dlookup, h, show ¬kv.1 = q from fun h2 => h (h2.symm.trans hk)]
    · by_cases h2 : kv.1 = q
      · have hqk : ¬q = k := fun hh => hk (h2.trans hh)
        simp [dpop, dlookup, hk, h2, hqk]
      · simp [dpop, dlookup, hk, h2, ih]

theorem dlookup_nil (q : ℚ) : dlookup [] q = none := rfl

/-- Fixed-point scale: real value = raw wire integer divided by 10^8
(the `msg.Price / 1e8` conversion, taken exactly in the rationals). -/
def scale (x : Int) : ℚ := (x : ℚ) / 10 ^ 8

theorem scale_pos (x : Int) : 0 < scale x ↔ 0 < x := by
  unfold scale
  rw [lt_div_iff₀ (by norm_num : (0 : ℚ) < 10 ^ 8)]
  simp

/-- Flags bit test `msg.Flags & MarketFlag.Buy` (Buy = 1). -/
def hasBuy (f : Nat) : Bool := f &&& 1 != 0

/-- Flags bit test `msg.Flags & MarketFlag.Clear` (Clear = 4). -/
def hasClear (f : Nat) : Bool := f &&& 4 != 0

/-- A decoded DepthItem: header timestamp, raw fixed-point price and
volume (c_longlong), and the flags byte (Buy=1, Sell=2, Clear=4, EoTx=8),
taken as its unsigned byte value. -/
structure DepthItem where
  Time : Int
  Price : Int
  Volume : Int
  Flags : Nat
deriving DecidableEq

/-- A decoded TickItem (Trade record): header timestamp, trade id, raw
fixed-point price and volume, and the opaque type byte. -/
structure TickItem where
  Time : Int
  Id : Int
  Price : Int
  Volume : Int
  Type_ : Nat
deriving DecidableEq

/-- The order book of bench_faststorage_cs.py: two price-keyed dicts. -/
structure DepthBook where
  bids : List (ℚ × ℚ)
  asks : List (ℚ × ℚ)
deriving DecidableEq

def DepthBook.empty : DepthBook := ⟨[], []⟩

/-- DepthBook.apply from bench_faststorage_cs.py: clear both sides when the
Clear bit is set, pick bids when the Buy bit is set and asks otherwise,
then upsert the scaled level when the raw volume is positive and delete it
otherwise. -/
def DepthBook.apply (b : DepthBook) (msg : DepthItem) : DepthBook :=
  let b := if hasClear msg.Flags then DepthBook.empty else b
  let price := scale msg.Price
  let volume := scale msg.Volume
  if hasBuy msg.Flags then
    if 0 < msg.Volume then ⟨dset b.bids price volume, b.asks⟩
    else ⟨dpop b.bids price, b.asks⟩
  else
    if 0 < msg.Volume then ⟨b.bids, dset b.asks price volume⟩
    else ⟨b.bids, dpop b.asks price⟩

/-- DepthSnapshot.update from process_messages_cs.py; its body repeats
DepthBook.apply line for line. -/
def DepthSnapshot.update (b : DepthBook) (msg : DepthItem) : DepthBook :=
  let b := if hasClear msg.Flags then DepthBook.empty else b
  let price := scale msg.Price
  let volume := scale msg.Volume
  if hasBuy msg.Flags then
    if 0 < msg.Volume then ⟨dset b.bids price volume, b.asks⟩
    else ⟨dpop b.bids price, b.asks⟩
  else
    if 0 < msg.Volume then ⟨b.bids, dset b.asks price volume⟩
    else ⟨b.bids, dpop b.asks price⟩

theorem update_eq_apply (b : DepthBook) (msg : DepthItem) :
    DepthSnapshot.update b msg = DepthBook.apply b msg := rfl

/-- The side of the book selected by a Boolean (true = bids). -/
def sideOf (b : DepthBook) (isBid : Bool) : List (ℚ × ℚ) :=
  if isBid then b.bids else b.asks

/-- best_bid: `max(self.bids) if self.bids else None` (max over keys). -/
def DepthBook.best_bid (b : DepthBook) : Option ℚ :=
  match b.bids.map Prod.fst with
  | [] => none
  | k :: ks => some (ks.foldl max k)

/-- best_ask: `min(self.asks) if self.asks else None` (min over keys). -/
def DepthBook.best_ask (b : DepthBook) : Option ℚ :=
  match b.asks.map Prod.fst with
  | [] => none
  | k :: ks => some (ks.foldl min k)

theorem apply_dlookup (b : DepthBook) (msg : DepthItem)
    (hclear : hasClear msg.Flags = false) (isBid : Bool) (q : ℚ) :
    dlookup (sideOf (b.apply msg) isBid) q =
      if hasBuy msg.Flags = isBid ∧ q = scale msg.Price then
        (if 0 < msg.Volume then some (scale msg.Volume) else none)
      else dlookup (sideOf b isBid) q := by
  by_cases hv : 0 < msg.Volume <;>
    by_cases hp : q = scale msg.Price <;>
      cases hb : hasBuy msg.Flags <;>
        cases isBid <;>
          simp [DepthBook.apply, sideOf, hclear, hv, hp, hb,
            dlookup_dset, dlookup_dpop]

theorem apply_empty_dlookup (msg : DepthItem) (isBid : Bool) (q : ℚ) :
    dlookup (sideOf (DepthBook.empty.apply msg) isBid) q =
      if hasBuy msg.Flags = isBid ∧ q = scale msg.Price ∧ 0 < msg.Volume then
        some (scale msg.Volume)
      else none := by
  by_cases hv : 0 < msg.Volume <;>
    by_cases hp : q = scale msg.Price <;>
      cases hb : hasBuy msg.Flags <;>
        cases isBid <;>
          simp [DepthBook.apply, DepthBook.empty, sideOf, hv, hp, hb,
            dlookup_dset, dlookup_dpop, dlookup_nil]

/-- The last record of the list that targets the given side at the given
scaled price, if any: the spec phrase "the last record with that price on
that side". -/
def lastAt : List DepthItem → Bool → ℚ → Option DepthItem
  | [], _, _ => none
  | d :: rest, isBid, q =>
    match lastAt rest isBid q with
    | some d2 => some d2
    | none => if hasBuy d.Flags = isBid ∧ q = scale d.Price then some d else none

theorem applyAll_dlookup (recs : List DepthItem) (b : DepthBook)
    (h : ∀ d ∈ recs, hasClear d.Flags = false) (isBid : Bool) (q : ℚ) :
    dlookup (sideOf (recs.foldl DepthBook.apply b) isBid) q =
      match lastAt recs isBid q with
      | some d => if 0 < d.Volume then some (scale d.Volume) else none
      | none => dlookup (sideOf b isBid) q := by
  induction recs generalizing b with
  | nil => simp [lastAt]
  | cons r rest ih =>
    have hr : hasClear r.Flags = false := h r (List.mem_cons_self r rest)
    have hrest : ∀ d ∈ rest, hasClear d.Flags = false :=
      fun d hd => h d (List.mem_cons_of_mem r hd)
    rw [List.foldl_cons, ih (b.apply r) hrest]
    cases hlast : lastAt rest isBid q with
    | some d2 => simp [lastAt, hlast]
    | none =>
      rw [apply_dlookup b r hr isBid q]
      by_cases hc : hasBuy r.Flags = isBid ∧ q = scale r.Price
      · obtain ⟨hc1, hc2⟩ := hc
        subst hc2
        simp [lastAt, hlast, hc1]
      · simp [lastAt, hlast, hc]

/-- A record handed to the loop body by FastReader: a decoded DepthItem
for kind 0, a decoded TickItem for kind 1, and for every other kind the
reader yields None (the loop sees an unrecognized record). -/
inductive Message where
  | depth (d : DepthItem)
  | tick (t : TickItem)
  | unrecognized
deriving DecidableEq

/-- A trade log entry: (header time, scaled price, scaled volume). -/
abbrev TradeLog := List (Int × ℚ × ℚ)

/-- TradeLog.push from bench_faststorage_cs.py: append
(msg.Header.Time, msg.Price / 1e8, msg.Volume / 1e8). -/
def TradeLog.push (log : TradeLog) (msg : TickItem) : TradeLog :=
  log ++ [(msg.Time, scale msg.Price, scale msg.Volume)]

/-- TradeProcessor.update from process_messages_cs.py; it appends the same
triple as TradeLog.push. -/
def TradeProcessor.update (log : TradeLog) (msg : TickItem) : TradeLog :=
  log ++ [(msg.Time, scale msg.Price, scale msg.Volume)]

/-- The tuple appended to the trade log for one TickItem. -/
def tradeEntry (t : TickItem) : Int × ℚ × ℚ :=
  (t.Time, scale t.Price, scale t.Volume)

/-- Loop state of run_benchmark in bench_faststorage_cs.py. The
observations field records, in order, each one-time first-complete-book
report (the pair best_bid, best_ask printed at that instant). -/
structure BenchState where
  depth : DepthBook
  trades : TradeLog
  msgs : Nat
  building_snapshot : Bool
  first_snapshot_reported : Bool
  observations : List (Option ℚ × Option ℚ)
deriving DecidableEq

def benchInit : BenchState := ⟨DepthBook.empty, [], 0, true, false, []⟩

/-- One iteration of the run_benchmark loop body: None records are skipped
by `continue` before the counter line, DepthItem goes to DepthBook.apply,
TickItem goes to TradeLog.push and, when building_snapshot is still true,
flips it and reports best_bid/best_ask of the book at that instant. -/
def benchStep (s : BenchState) (raw : Message) : BenchState :=
  match raw with
  | .unrecognized => s
  | .depth d => { s with depth := s.depth.apply d, msgs := s.msgs + 1 }
  | .tick t =>
    let s1 : BenchState := { s with trades := s.trades.push t }
    if s1.building_snapshot then
      { s1 with building_snapshot := false,
                observations := s1.observations ++ [(s1.depth.best_bid, s1.depth.best_ask)],
                first_snapshot_reported := true,
                msgs := s1.msgs + 1 }
    else { s1 with msgs := s1.msgs + 1 }

/-- The run_benchmark loop over a decoded record sequence. -/
def run_benchmark (msgs : List Message) : BenchState :=
  msgs.foldl benchStep benchInit

/-- Loop state of process_messages in process_messages_cs.py (no snapshot
state machine there, only the book, the trades and the counter). -/
structure ProcState where
  depth : DepthBook
  trades : TradeLog
  count : Nat
deriving DecidableEq

/-- One iteration of the process_messages loop body: None records are
skipped by `continue` before `count += 1`. -/
def procStep (s : ProcState) (msg : Message) : ProcState :=
  match msg with
  | .unrecognized => s
  | .depth d => { s with depth := DepthSnapshot.update s.depth d, count := s.count + 1 }
  | .tick t => { s with trades := TradeProcessor.update s.trades t, count := s.count + 1 }

/-- The process_messages loop over a decoded record sequence. -/
def process_messages (msgs : List Message) : ProcState :=
  msgs.foldl procStep ⟨DepthBook.empty, [], 0⟩

/-- Python max over the keys of a non-empty dict (default 0, only used on
non-empty sides). -/
def maxKey (m : List (ℚ × ℚ)) : ℚ :=
  match m.map Prod.fst with
  | [] => 0
  | k :: ks => ks.foldl max k

/-- Python min over the keys of a non-empty dict (default 0, only used on
non-empty sides). -/
def minKey (m : List (ℚ × ℚ)) : ℚ :=
  match m.map Prod.fst with
  | [] => 0
  | k :: ks => ks.foldl min k

/-- Loop state of benchmark in bench_faststorage_rust.py: inline bids and
asks dicts, the trades list, the counter, and the two snapshot flags. -/
structure RustState where
  bids : List (ℚ × ℚ)
  asks : List (ℚ × ℚ)
  trades : TradeLog
  cnt : Nat
  building_snapshot : Bool
  first_snapshot_printed : Bool
  observations : List (ℚ × ℚ)
deriving DecidableEq

def rustInit : RustState := ⟨[], [], [], 0, true, false, []⟩

/-- One iteration of the benchmark loop body in bench_faststorage_rust.py.
On Clear it also sets building_snapshot back to true; the upsert or delete
tests the scaled volume `vol > 0`; on a Tick while building_snapshot it
flips the flag and reports max(bids), min(asks) only when both sides are
non-empty and nothing was printed before; every record, unknown kinds
included, reaches `cnt += 1`. -/
def rustStep (s : RustState) (msg : Message) : RustState :=
  match msg with
  | .depth d =>
    let px := scale d.Price
    let vol := scale d.Volume
    let s1 : RustState :=
      if hasClear d.Flags then { s with bids := [], asks := [], building_snapshot := true }
      else s
    let s2 : RustState :=
      if hasBuy d.Flags then
        if 0 < vol then { s1 with bids := dset s1.bids px vol }
        else { s1 with bids := dpop s1.bids px }
      else
        if 0 < vol then { s1 with asks := dset s1.asks px vol }
        else { s1 with asks := dpop s1.asks px }
    { s2 with cnt := s2.cnt + 1 }
  | .tick t =>
    let s1 : RustState := { s with trades := s.trades ++ [tradeEntry t] }
    let s2 : RustState :=
      if s1.building_snapshot then
        let s15 : RustState := { s1 with building_snapshot := false }
        if !s15.bids.isEmpty && !s15.asks.isEmpty && !s15.first_snapshot_printed then
          { s15 with observations := s15.observations ++ [(maxKey s15.bids, minKey s15.asks)],
                     first_snapshot_printed := true }
        else s15
      else s1
    { s2 with cnt := s2.cnt + 1 }
  | .unrecognized => { s with cnt := s.cnt + 1 }

/-- The rust-reader benchmark loop over a decoded record sequence. -/
def rustRun (msgs : List Message) : RustState :=
  msgs.foldl rustStep rustInit

/-- Outcome of one FastReader.__next__ call as a function of the return
code of read_message. -/
inductive ReadOutcome where
  | endOfStream
  | corruptBlock
  | unexpectedEndOfFile
  | unknownFailure (code : Int)
  | record
deriving DecidableEq

/-- FastReader.__next__ of the two cs scripts as a function of
message_size: 0 stops the iteration, -2 raises the corrupted-data-block
error, -3 raises the unexpected-end-of-file error, any other negative code
raises the unknown-error message carrying the code, and a positive size
yields the record. -/
def FastReader.next_cs (message_size : Int) : ReadOutcome :=
  if message_size = 0 then .endOfStream
  else if message_size < 0 then
    if message_size = -2 then .corruptBlock
    else if message_size = -3 then .unexpectedEndOfFile
    else .unknownFailure message_size
  else .record

/-- FastReader.__next__ of bench_faststorage_rust.py: positive size yields
the record, 0 stops the iteration, and every negative code raises the one
generic native-reader error carrying the code. -/
def FastReader.next_rust (sz : Int) : ReadOutcome :=
  if 0 < sz then .record
  else if sz = 0 then .endOfStream
  else .unknownFailure sz

/-- Packed field widths of MessageHeader: Kind c_short, Size c_ushort,
Time c_longlong, with _pack_ = 1. -/
def MessageHeader.fieldWidths : List (String × Nat) :=
  [("Kind", 2), ("Size", 2), ("Time", 8)]

/-- Packed field widths of DepthItem: the header followed by Price and
Volume c_longlong and the Flags c_byte, with _pack_ = 1. -/
def DepthItem.fieldWidths : List (String × Nat) :=
  MessageHeader.fieldWidths ++ [("Price", 8), ("Volume", 8), ("Flags", 1)]

/-- Packed field widths of TickItem: the header followed by Id, Price and
Volume c_longlong and the Type c_byte, with _pack_ = 1. -/
def TickItem.fieldWidths : List (String × Nat) :=
  MessageHeader.fieldWidths ++ [("Id", 8), ("Price", 8), ("Volume", 8), ("Type", 1)]

/-- Total byte size of a packed structure: the sum of the field widths,
with no implicit padding anywhere (_pack_ = 1). -/
def packedSize (fields : List (String × Nat)) : Nat :=
  (fields.map Prod.snd).sum

/-- Byte offset of a field in a packed structure: the sum of the widths of
the fields before it, with no implicit padding anywhere (_pack_ = 1). -/
def offsetOf : List (String × Nat) → String → Option Nat
  | [], _ => none
  | (n, w) :: rest, name =>
    if n = name then some 0 else (offsetOf rest name).map (· + w)

/-- The upsert or delete a Depth record performs on its selected side:
set the scaled level when the raw volume is positive, else drop the key. -/
def updSide (side : List (ℚ × ℚ)) (msg : DepthItem) : List (ℚ × ℚ) :=
  if 0 < msg.Volume then dset side (scale msg.Price) (scale msg.Volume)
  else dpop side (scale msg.Price)

theorem apply_eq_updSide (b : DepthBook) (msg : DepthItem) :
    b.apply msg =
      if hasBuy msg.Flags then
        ⟨updSide (if hasClear msg.Flags then DepthBook.empty else b).bids msg,
         (if hasClear msg.Flags then DepthBook.empty else b).asks⟩
      else
        ⟨(if hasClear msg.Flags then DepthBook.empty else b).bids,
         updSide (if hasClear msg.Flags then DepthBook.empty else b).asks msg⟩ := by
  by_cases hc : hasClear msg.Flags = true <;>
    by_cases hbuy : hasBuy msg.Flags = true <;>
      by_cases hv : 0 < msg.Volume <;>
        simp [DepthBook.apply, updSide, hc, hbuy, hv]

/-- C1: with the Clear flag never set, folding the Depth records over the
empty book leaves, on each side, exactly the scaled prices whose last
record on that side carried positive raw volume, each bound to the scaled
volume of that last record, and no key at all where the last record had
volume at most zero or where no record targeted the price; the
process_messages variant DepthSnapshot.update is the same function as
DepthBook.apply. -/
theorem C1_no_clear_last_write_wins (recs : List DepthItem)
    (h : ∀ d ∈ recs, hasClear d.Flags = false) (isBid : Bool) (q : ℚ) :
    (dlookup (sideOf (recs.foldl DepthBook.apply DepthBook.empty) isBid) q =
      match lastAt recs isBid q with
      | some d => if 0 < d.Volume then some (scale d.Volume) else none
      | none => none) ∧
    (∀ b msg, DepthSnapshot.update b msg = DepthBook.apply b msg) := by
  constructor
  · rw [applyAll_dlookup recs DepthBook.empty h isBid q]
    cases lastAt recs isBid q <;> simp [sideOf, DepthBook.empty, dlookup_nil]
  · exact fun b msg => rfl

def c1recs : List DepthItem :=
  [⟨1, 10050000000, 200000000, 1⟩, ⟨2, 10050000000, 300000000, 1⟩,
   ⟨3, 10060000000, 150000000, 2⟩, ⟨4, 10060000000, 0, 2⟩]

theorem C1_witness :
    (∀ d ∈ c1recs, hasClear d.Flags = false) ∧
    ((dlookup (sideOf (c1recs.foldl DepthBook.apply DepthBook.empty) true)
        (scale 10050000000) =
      match lastAt c1recs true (scale 10050000000) with
      | some d => if 0 < d.Volume then some (scale d.Volume) else none
      | none => none) ∧
    (∀ b msg, DepthSnapshot.update b msg = DepthBook.apply b msg)) :=
  ⟨by decide,
    C1_no_clear_last_write_wins c1recs (by decide) true (scale 10050000000)⟩

/-- C2: a Clear-flagged Depth record first empties both sides and then
performs its own upsert or delete, so the result equals applying the
record to the empty book, and afterwards any level present on any side
must be the single level contributed by the record itself. -/
theorem C2_clear_empties_before_own_update (msg : DepthItem)
    (h : hasClear msg.Flags = true) (b : DepthBook) :
    b.apply msg = DepthBook.empty.apply msg ∧
    (∀ isBid q v, dlookup (sideOf (b.apply msg) isBid) q = some v →
      hasBuy msg.Flags = isBid ∧ q = scale msg.Price ∧ v = scale msg.Volume ∧
        0 < msg.Volume) := by
  have heq : b.apply msg = DepthBook.empty.apply msg := by
    simp [DepthBook.apply, h]
  refine ⟨heq, ?_⟩
  intro isBid q v hl
  rw [heq, apply_empty_dlookup] at hl
  by_cases hc : hasBuy msg.Flags = isBid ∧ q = scale msg.Price ∧ 0 < msg.Volume
  · rw [if_pos hc] at hl
    obtain ⟨h1, h2, h3⟩ := hc
    exact ⟨h1, h2, (Option.some_inj.mp hl).symm, h3⟩
  · rw [if_neg hc] at hl
    exact absurd hl (by simp)

def c2msg : DepthItem := ⟨5, 10000000000, 100000000, 5⟩

def c2book : DepthBook := ⟨[(1, 2)], [(3, 4)]⟩

theorem C2_witness :
    hasClear c2msg.Flags = true ∧
    (c2book.apply c2msg = DepthBook.empty.apply c2msg ∧
      (∀ isBid q v, dlookup (sideOf (c2book.apply c2msg) isBid) q = some v →
        hasBuy c2msg.Flags = isBid ∧ q = scale c2msg.Price ∧
          v = scale c2msg.Volume ∧ 0 < c2msg.Volume)) :=
  ⟨by decide, C2_clear_empties_before_own_update c2msg (by decide) c2book⟩

def c3msg : DepthItem := ⟨0, 10050000000, 200000000, 3⟩

/-- C3 counterexample: with both the Buy and the Sell bit set (Flags = 3)
the record goes to the bid side, not to the ask side as the claim states:
from the empty book the ask side stays empty and the bid side receives the
level. -/
theorem C3_counterexample :
    (DepthBook.empty.apply c3msg).asks = [] ∧
    (DepthBook.empty.apply c3msg).bids =
      [(scale 10050000000, scale 200000000)] := by
  exact ⟨rfl, rfl⟩

/-- C3 amended: apply targets the bid side exactly when the Buy bit is set
and the ask side otherwise; hence with both Buy and Sell set the record
goes to the bid side (Buy is set), with neither set it goes to the ask
side, and apply is a total function that never fails. -/
theorem C3_amended_buy_bit_selects_side (b : DepthBook) (msg : DepthItem) :
    (hasBuy msg.Flags = true →
      (b.apply msg).bids =
        updSide (if hasClear msg.Flags then [] else b.bids) msg ∧
      (b.apply msg).asks = (if hasClear msg.Flags then [] else b.asks)) ∧
    (hasBuy msg.Flags = false →
      (b.apply msg).asks =
        updSide (if hasClear msg.Flags then [] else b.asks) msg ∧
      (b.apply msg).bids = (if hasClear msg.Flags then [] else b.bids)) := by
  constructor
  · intro hbuy
    rw [apply_eq_updSide, if_pos hbuy]
    by_cases hc : hasClear msg.Flags = true <;>
      simp [hc, DepthBook.empty]
  · intro hbuy
    rw [apply_eq_updSide, if_neg (by simp [hbuy])]
    by_cases hc : hasClear msg.Flags = true <;>
      simp [hc, DepthBook.empty]

def c3book : DepthBook := ⟨[(1, 2)], [(3, 4)]⟩

theorem C3_witness :
    hasBuy c3msg.Flags = true ∧
    ((c3book.apply c3msg).bids =
        updSide (if hasClear c3msg.Flags then [] else c3book.bids) c3msg ∧
      (c3book.apply c3msg).asks =
        (if hasClear c3msg.Flags then [] else c3book.asks)) :=
  ⟨by decide, (C3_amended_buy_bit_selects_side c3book c3msg).1 (by decide)⟩

/-- C4 counterexample: a single unrecognized record leaves the processed
counter at 0 in both cs loops, not at 1 as the claim states, because the
`continue` for a None record runs before the counter line. -/
theorem C4_counterexample :
    (run_benchmark [Message.unrecognized]).msgs = 0 ∧
    (run_benchmark [Message.unrecognized]).msgs ≠ 1 ∧
    (process_messages [Message.unrecognized]).count = 0 ∧
    (process_messages [Message.unrecognized]).count ≠ 1 :=
  ⟨rfl, by decide, rfl, by decide⟩

/-- C4 amended: in both cs loops an unrecognized record is skipped
entirely by the `continue`: the order book, the trade log and also the
processed-message counter are left unchanged, and the loop goes on to the
next record. -/
theorem C4_amended_unrecognized_skipped_uncounted (s : BenchState)
    (p : ProcState) :
    benchStep s Message.unrecognized = s ∧
    procStep p Message.unrecognized = p :=
  ⟨rfl, rfl⟩

/-- The snapshot bookkeeping invariant of the cs benchmark loop: while
building_snapshot is still true nothing has been reported, and once it is
false exactly one observation exists. -/
def obsOK (s : BenchState) : Prop :=
  (s.building_snapshot = true → s.observations = []) ∧
  (s.building_snapshot = false → s.observations.length = 1)

theorem obsOK_init : obsOK benchInit :=
  ⟨fun _ => rfl, fun h => by simp [benchInit] at h⟩

theorem obsOK_step (s : BenchState) (m : Message) (h : obsOK s) :
    obsOK (benchStep s m) := by
  obtain ⟨h1, h2⟩ := h
  cases m with
  | unrecognized => exact ⟨h1, h2⟩
  | depth d => exact ⟨h1, h2⟩
  | tick t =>
    cases hb : s.building_snapshot with
    | true => refine ⟨?_, ?_⟩ <;> simp [benchStep, hb, h1 hb]
    | false => refine ⟨?_, ?_⟩ <;> simp [benchStep, hb, h2 hb]

theorem obsOK_foldl (msgs : List Message) :
    ∀ s, obsOK s → obsOK (msgs.foldl benchStep s) := by
  induction msgs with
  | nil => exact fun s h => h
  | cons m rest ih => exact fun s h => ih (benchStep s m) (obsOK_step s m h)

/-- C5: whenever a Trade record arrives while building_snapshot is still
true, the cs benchmark loop flips to Live and appends exactly one
observation carrying best_bid and best_ask of the book at that instant,
and over any whole run at most one observation is ever emitted. -/
theorem C5_first_trade_reports_once :
    (∀ (s : BenchState) (t : TickItem), s.building_snapshot = true →
      (benchStep s (Message.tick t)).building_snapshot = false ∧
      (benchStep s (Message.tick t)).observations =
        s.observations ++ [(s.depth.best_bid, s.depth.best_ask)]) ∧
    (∀ msgs : List Message, (run_benchmark msgs).observations.length ≤ 1) := by
  constructor
  · intro s t hb
    constructor <;> simp [benchStep, hb]
  · intro msgs
    obtain ⟨h1, h2⟩ := obsOK_foldl msgs benchInit obsOK_init
    unfold run_benchmark
    cases hb : (msgs.foldl benchStep benchInit).building_snapshot with
    | true => simp [h1 hb]
    | false => simp [h2 hb]

def c5tick : TickItem := ⟨7, 1, 10055000000, 50000000, 0⟩

theorem C5_witness :
    (benchInit.building_snapshot = true ∧
      ((benchStep benchInit (Message.tick c5tick)).building_snapshot = false ∧
        (benchStep benchInit (Message.tick c5tick)).observations =
          benchInit.observations ++
            [(benchInit.depth.best_bid, benchInit.depth.best_ask)])) ∧
    (run_benchmark [Message.tick c5tick]).observations.length ≤ 1 :=
  ⟨⟨rfl, C5_first_trade_reports_once.1 benchInit c5tick rfl⟩,
    C5_first_trade_reports_once.2 [Message.tick c5tick]⟩

def c6tick : TickItem := ⟨0, 0, 0, 0, 0⟩

def c6clear : DepthItem := ⟨0, 0, 0, 4⟩

/-- C6 counterexample: on the stream Trade then Clear-flagged Depth, the
cs benchmark is still Live afterwards (building_snapshot false) while the
rust-reader benchmark is back in BuildingSnapshot (building_snapshot
true): the variants do not agree on the revert policy. -/
theorem C6_counterexample :
    (run_benchmark [Message.tick c6tick, Message.depth c6clear]).building_snapshot
        = false ∧
    (rustRun [Message.tick c6tick, Message.depth c6clear]).building_snapshot
        = true := by
  have h0 : ¬(0 < scale (0 : Int)) := by
    rw [scale_pos]
    omega
  constructor
  · rfl
  · simp [rustRun, rustStep, rustInit, c6tick, c6clear, hasClear, hasBuy, h0,
      tradeEntry]

/-- C6 amended: the variants disagree: once building_snapshot is false the
cs benchmark keeps it false on every further record, while the rust-reader
benchmark sets it back to true on every Clear-flagged Depth record, so the
first-complete-book observation can fire at different points. -/
theorem C6_amended_revert_policies_differ (s : BenchState) (r : RustState)
    (m : Message) (d : DepthItem) (hb : s.building_snapshot = false)
    (hc : hasClear d.Flags = true) :
    (benchStep s m).building_snapshot = false ∧
    (rustStep r (Message.depth d)).building_snapshot = true := by
  constructor
  · cases m with
    | unrecognized => exact hb
    | depth d2 => exact hb
    | tick t => simp [benchStep, hb]
  · by_cases hbuy : hasBuy d.Flags = true <;>
      by_cases hv : 0 < scale d.Volume <;>
        simp [rustStep, hc, hbuy, hv]

def c6bench : BenchState := ⟨DepthBook.empty, [], 1, false, true, [(none, none)]⟩

theorem C6_witness :
    (c6bench.building_snapshot = false ∧ hasClear c6clear.Flags = true) ∧
    ((benchStep c6bench Message.unrecognized).building_snapshot = false ∧
      (rustStep rustInit (Message.depth c6clear)).building_snapshot = true) :=
  ⟨⟨rfl, by decide⟩,
    C6_amended_revert_policies_differ c6bench rustInit Message.unrecognized
      c6clear rfl (by decide)⟩

/-- C7 counterexample: the rust-reader FastReader raises its single
generic native-reader error for code -2; it does not surface the
corrupted-data-block condition the claim names for that code. -/
theorem C7_counterexample :
    FastReader.next_rust (-2) = ReadOutcome.unknownFailure (-2) ∧
    FastReader.next_rust (-2) ≠ ReadOutcome.corruptBlock := by
  exact ⟨by decide, by decide⟩

/-- C7 amended: the cs readers map -2 to the corrupted-data-block error,
-3 to the unexpected-end-of-file error and every other negative code to
the unknown-failure error carrying the code, while the rust reader raises
one generic failure carrying the code for every negative return; in all
readers a positive size yields the record and 0 ends the loop normally. -/
theorem C7_amended_error_code_classification (sz : Int) :
    FastReader.next_cs (-2) = ReadOutcome.corruptBlock ∧
    FastReader.next_cs (-3) = ReadOutcome.unexpectedEndOfFile ∧
    (sz < 0 → sz ≠ -2 → sz ≠ -3 →
      FastReader.next_cs sz = ReadOutcome.unknownFailure sz) ∧
    (sz < 0 → FastReader.next_rust sz = ReadOutcome.unknownFailure sz) ∧
    (0 < sz → FastReader.next_cs sz = ReadOutcome.record ∧
      FastReader.next_rust sz = ReadOutcome.record) ∧
    FastReader.next_cs 0 = ReadOutcome.endOfStream ∧
    FastReader.next_rust 0 = ReadOutcome.endOfStream := by
  refine ⟨by decide, by decide, ?_, ?_, ?_, by decide, by decide⟩
  · intro h1 h2 h3
    have h0 : ¬sz = 0 := by omega
    simp [FastReader.next_cs, h0, h1, h2, h3]
  · intro h1
    have h0 : ¬sz = 0 := by omega
    have hpos : ¬0 < sz := by omega
    simp [FastReader.next_rust, h0, hpos]
  · intro h1
    have h0 : ¬sz = 0 := by omega
    have hneg : ¬sz < 0 := by omega
    simp [FastReader.next_cs, FastReader.next_rust, h0, h1, hneg]

theorem C7_witness :
    ((-5 : Int) < 0 ∧ (-5 : Int) ≠ -2 ∧ (-5 : Int) ≠ -3) ∧
    (FastReader.next_cs (-5) = ReadOutcome.unknownFailure (-5) ∧
      FastReader.next_rust (-5) = ReadOutcome.unknownFailure (-5)) :=
  ⟨by decide,
    ⟨(C7_amended_error_code_classification (-5)).2.2.1 (by decide) (by decide)
        (by decide),
      (C7_amended_error_code_classification (-5)).2.2.2.1 (by decide)⟩⟩

theorem foldl_push (calls : List TickItem) :
    ∀ init : TradeLog, calls.foldl TradeLog.push init = init ++ calls.map tradeEntry := by
  induction calls with
  | nil => intro init; simp
  | cons c rest ih =>
    intro init
    rw [List.foldl_cons, ih]
    simp [TradeLog.push, tradeEntry]

/-- C8: the trade log built by a sequence of push calls is exactly the
per-call triples (header time, scaled price, scaled volume) in call order
with nothing deduplicated, its length is the number of calls, the last
entry always equals the most recently appended triple, the last entry is
none exactly when the log is empty, and the process_messages variant
TradeProcessor.update appends the same triple as TradeLog.push. -/
theorem C8_trade_log_append_order (calls : List TickItem) (log : TradeLog)
    (t : TickItem) :
    calls.foldl TradeLog.push [] = calls.map tradeEntry ∧
    (calls.foldl TradeLog.push []).length = calls.length ∧
    (TradeLog.push log t).getLast? = some (tradeEntry t) ∧
    (log.getLast? = none ↔ log = []) ∧
    (∀ lg u, TradeProcessor.update lg u = TradeLog.push lg u) := by
  refine ⟨?_, ?_, ?_, ?_, fun lg u => rfl⟩
  · simpa using foldl_push calls []
  · rw [foldl_push calls []]
    simp
  · exact List.getLast?_concat log
  · exact List.getLast?_eq_none_iff

/-- C9: the packed wire layout (with _pack_ = 1, so every offset is the
plain sum of the widths of the preceding fields and there is no implicit
padding): the header occupies 12 bytes with Kind at offset 0, Size at 2
and Time at 4; a Depth record occupies 29 bytes with Price at 12, Volume
at 20 and Flags at 28; a Trade record occupies 37 bytes with Id at 12,
Price at 20, Volume at 28 and Type at 36. -/
theorem C9_packed_wire_layout :
    packedSize MessageHeader.fieldWidths = 12 ∧
    offsetOf MessageHeader.fieldWidths "Kind" = some 0 ∧
    offsetOf MessageHeader.fieldWidths "Size" = some 2 ∧
    offsetOf MessageHeader.fieldWidths "Time" = some 4 ∧
    packedSize DepthItem.fieldWidths = 29 ∧
    offsetOf DepthItem.fieldWidths "Price" = some 12 ∧
    offsetOf DepthItem.fieldWidths "Volume" = some 20 ∧
    offsetOf DepthItem.fieldWidths "Flags" = some 28 ∧
    packedSize TickItem.fieldWidths = 37 ∧
    offsetOf TickItem.fieldWidths "Id" = some 12 ∧
    offsetOf TickItem.fieldWidths "Price" = some 20 ∧
    offsetOf TickItem.fieldWidths "Volume" = some 28 ∧
    offsetOf TickItem.fieldWidths "Type" = some 36 := by
  refine ⟨rfl, rfl, rfl, rfl, rfl, rfl, rfl, rfl, rfl, rfl, rfl, rfl, rfl⟩

/-- Every volume stored on the side is strictly positive. -/
def posSide (m : List (ℚ × ℚ)) : Prop :=
  ∀ q v, dlookup m q = some v → 0 < v

/-- Every volume stored on either side of the book is strictly positive. -/
def posBook (b : DepthBook) : Prop :=
  posSide b.bids ∧ posSide b.asks

theorem posSide_nil : posSide [] := by
  intro q v h
  simp [dlookup] at h

theorem posSide_dset (m : List (ℚ × ℚ)) (k v : ℚ) (hm : posSide m)
    (hv : 0 < v) : posSide (dset m k v) := by
  intro q w hl
  rw [dlookup_dset] at hl
  by_cases hq : q = k
  · rw [if_pos hq] at hl
    cases hl
    exact hv
  · rw [if_neg hq] at hl
    exact hm q w hl

theorem posSide_dpop (m : List (ℚ × ℚ)) (k : ℚ) (hm : posSide m) :
    posSide (dpop m k) := by
  intro q w hl
  rw [dlookup_dpop] at hl
  by_cases hq : q = k
  · rw [if_pos hq] at hl
    cases hl
  · rw [if_neg hq] at hl
    exact hm q w hl

theorem posSide_updSide (m : List (ℚ × ℚ)) (msg : DepthItem)
    (hm : posSide m) : posSide (updSide m msg) := by
  unfold updSide
  by_cases hv : 0 < msg.Volume
  · rw [if_pos hv]
    exact posSide_dset _ _ _ hm ((scale_pos msg.Volume).mpr hv)
  · rw [if_neg hv]
    exact posSide_dpop _ _ hm

theorem posBook_apply (b : DepthBook) (msg : DepthItem) (h : posBook b) :
    posBook (b.apply msg) := by
  rw [apply_eq_updSide]
  have hpre : posBook (if hasClear msg.Flags then DepthBook.empty else b) := by
    by_cases hc : hasClear msg.Flags = true
    · rw [if_pos hc]
      exact ⟨posSide_nil, posSide_nil⟩
    · rw [if_neg hc]
      exact h
  obtain ⟨h1, h2⟩ := hpre
  by_cases hbuy : hasBuy msg.Flags = true
  · rw [if_pos hbuy]
    exact ⟨posSide_updSide _ _ h1, h2⟩
  · rw [if_neg hbuy]
    exact ⟨h1, posSide_updSide _ _ h2⟩

theorem posBook_applyAll (recs : List DepthItem) :
    ∀ b, posBook b → posBook (recs.foldl DepthBook.apply b) := by
  induction recs with
  | nil => exact fun b h => h
  | cons r rest ih => exact fun b h => ih (b.apply r) (posBook_apply b r h)

theorem rustStep_depth_book (s : RustState) (d : DepthItem) :
    (rustStep s (Message.depth d)).bids =
        (DepthBook.apply ⟨s.bids, s.asks⟩ d).bids ∧
    (rustStep s (Message.depth d)).asks =
        (DepthBook.apply ⟨s.bids, s.asks⟩ d).asks := by
  have hs : (0 < scale d.Volume) = (0 < d.Volume) := propext (scale_pos d.Volume)
  by_cases hc : hasClear d.Flags = true <;>
    by_cases hbuy : hasBuy d.Flags = true <;>
      by_cases hv : 0 < d.Volume <;>
        simp [rustStep, DepthBook.apply, DepthBook.empty, hc, hbuy, hv, hs]

theorem rustStep_tick_book (s : RustState) (t : TickItem) :
    (rustStep s (Message.tick t)).bids = s.bids ∧
    (rustStep s (Message.tick t)).asks = s.asks := by
  cases h1 : s.building_snapshot <;>
    cases h2 : (!s.bids.isEmpty && !s.asks.isEmpty && !s.first_snapshot_printed) <;>
      simp [rustStep, h1, h2]

theorem posRust_step (s : RustState) (m : Message)
    (h : posSide s.bids ∧ posSide s.asks) :
    posSide (rustStep s m).bids ∧ posSide (rustStep s m).asks := by
  cases m with
  | unrecognized => exact h
  | tick t =>
    obtain ⟨e1, e2⟩ := rustStep_tick_book s t
    rw [e1, e2]
    exact h
  | depth d =>
    obtain ⟨e1, e2⟩ := rustStep_depth_book s d
    rw [e1, e2]
    exact posBook_apply ⟨s.bids, s.asks⟩ d h

theorem posRust_foldl (msgs : List Message) :
    ∀ s, posSide s.bids ∧ posSide s.asks →
      posSide (msgs.foldl rustStep s).bids ∧ posSide (msgs.foldl rustStep s).asks := by
  induction msgs with
  | nil => exact fun s h => h
  | cons m rest ih => exact fun s h => ih (rustStep s m) (posRust_step s m h)

/-- C10: every volume stored on either side is strictly positive: one
apply call preserves the invariant, every book reached from the empty book
by a sequence of applied Depth records satisfies it, and the inline book
of the rust-reader benchmark satisfies it over any record sequence. -/
theorem C10_stored_volumes_positive (b : DepthBook) (msg : DepthItem)
    (h : posBook b) (recs : List DepthItem) (msgs : List Message) :
    posBook (b.apply msg) ∧
    posBook (recs.foldl DepthBook.apply DepthBook.empty) ∧
    (posSide (rustRun msgs).bids ∧ posSide (rustRun msgs).asks) :=
  ⟨posBook_apply b msg h,
   posBook_applyAll recs DepthBook.empty ⟨posSide_nil, posSide_nil⟩,
   posRust_foldl msgs rustInit ⟨posSide_nil, posSide_nil⟩⟩

def c10msg : DepthItem := ⟨9, 10060000000, 150000000, 2⟩

theorem C10_witness :
    posBook DepthBook.empty ∧
    (posBook (DepthBook.empty.apply c10msg) ∧
      posBook ([c10msg].foldl DepthBook.apply DepthBook.empty) ∧
      (posSide (rustRun [Message.depth c10msg]).bids ∧
        posSide (rustRun [Message.depth c10msg]).asks)) :=
  ⟨⟨posSide_nil, posSide_nil⟩,
    C10_stored_volumes_positive DepthBook.empty c10msg
      ⟨posSide_nil, posSide_nil⟩ [c10msg] [Message.depth c10msg]⟩

end FastStorage
